import Mathlib

/-!
Verification of the uswap client core (swap pricing engine and
settlement-reconciliation state machine) against its specification.

JavaScript numbers are modelled by exact rationals (`ℚ`); the numeric
helpers additionally receive a `JSVal` that distinguishes an actual
number from `NaN` and from values of non-number type, matching the
`typeof`/`isNaN` guards in `utils.js`.  Stateful code (the persisted
swap history, the reconciliation pass) is modelled by explicit state
passing, with the outcomes of remote ledger queries supplied as
explicit oracle values (`Except Unit _`, where `error` is a rejected
promise / thrown network failure).
-/

namespace USwap

/-- A JavaScript value flowing into the numeric helpers: a finite
number, `NaN`, or a value whose `typeof` is not `'number'`. -/
inductive JSVal
  | num (q : ℚ)
  | nan
  | nonNumber
deriving DecidableEq

namespace Utils

/-- JS `Math.round`: round half toward positive infinity. -/
def jsRound (q : ℚ) : ℤ := ⌊q + 1/2⌋

/-- `Utils.roundTo` from `utils.js`: returns `0` unless the value is an
actual number, else rounds at `decimals` decimal places using
`Math.round(value * 10^d) / 10^d`. -/
def roundTo (value : JSVal) (decimals : ℕ) : ℚ :=
  match value with
  | .num q => (jsRound (q * 10 ^ decimals) : ℚ) / 10 ^ decimals
  | _ => 0

/-- `Utils.floorTo` from `utils.js`: like `roundTo` but with
`Math.floor`. -/
def floorTo (value : JSVal) (decimals : ℕ) : ℚ :=
  match value with
  | .num q => ((⌊q * 10 ^ decimals⌋ : ℤ) : ℚ) / 10 ^ decimals
  | _ => 0

/-- `Utils.safeMultiply`: multiply then round at 8 decimals. -/
def safeMultiply (a b : ℚ) : ℚ := roundTo (.num (a * b)) 8

/-- `Utils.safeDivide`: `0` on a zero divisor, else divide and round at
8 decimals. -/
def safeDivide (a b : ℚ) : ℚ :=
  if b = 0 then 0 else roundTo (.num (a / b)) 8

/-- `Utils.parseNumber`: an actual number parses to itself, anything
else yields the default.  (`NaN` fails the `isNaN` test, non-numbers
fail `parseFloat`.) -/
def parseNumber (value : JSVal) (defaultValue : ℚ) : ℚ :=
  match value with
  | .num q => q
  | _ => defaultValue

/-- `Utils.isPositiveNumber` on an (already numeric) value: positive
and finite. -/
def isPositiveNumber (q : ℚ) : Bool := decide (0 < q)

end Utils

/-- The two swappable assets. -/
inductive Token
  | HIVE
  | SWAPHIVE
deriving DecidableEq

/-- Display name of a token, as used in template strings. -/
def tokenStr : Token → String
  | .HIVE => "HIVE"
  | .SWAPHIVE => "SWAP.HIVE"

namespace CONFIG

def DECIMAL : ℚ := 1000
/-- `0.002` in the source. -/
def BASE_FEE : ℚ := 2 / 1000
/-- `0.00075` in the source. -/
def MIN_BASE_FEE : ℚ := 75 / 100000
/-- `0.00575` in the source. -/
def DIFF_COEFFICIENT : ℚ := 575 / 100000
/-- `1.00` in the source. -/
def BASE_PRICE_HIVE_TO_SHIVE : ℚ := 1
def HIVEPOOL : ℚ := 24900
def SHIVEPOOL : ℚ := 24900
def BRIDGE_USER : String := "uswap"
def MINIMUM_SWAP : ℚ := 1

end CONFIG

/-- The remotely configurable fee curve (`feeConfig` in `config.js`). -/
structure FeeConfig where
  BASE_FEE : ℚ
  MIN_BASE_FEE : ℚ
  DIFF_COEFFICIENT : ℚ
  BASE_PRICE_HIVE_TO_SHIVE : ℚ
deriving DecidableEq

/-- The built-in default fee configuration. -/
def defaultFeeConfig : FeeConfig :=
  { BASE_FEE := CONFIG.BASE_FEE
    MIN_BASE_FEE := CONFIG.MIN_BASE_FEE
    DIFF_COEFFICIENT := CONFIG.DIFF_COEFFICIENT
    BASE_PRICE_HIVE_TO_SHIVE := CONFIG.BASE_PRICE_HIVE_TO_SHIVE }

/-- Bridge-account pool sizes (`CONFIG.HIVEPOOL` / `CONFIG.SHIVEPOOL`,
mutable module state refreshed by the liquidity snapshot, hence passed
explicitly). -/
structure PoolState where
  HIVEPOOL : ℚ
  SHIVEPOOL : ℚ
deriving DecidableEq

/-- The default pools from `CONFIG`. -/
def defaultPools : PoolState :=
  { HIVEPOOL := CONFIG.HIVEPOOL, SHIVEPOOL := CONFIG.SHIVEPOOL }

/-- The pool-imbalance measure computed inside `calculateFee`:
`diff = (amount * 0.5 + fromPool) / totalPool - 0.5`. -/
def poolDiff (pools : PoolState) (amount : ℚ) (fromToken : Token) : ℚ :=
  let fromPool := if fromToken = .HIVE then pools.HIVEPOOL else pools.SHIVEPOOL
  let totalPool := pools.HIVEPOOL + pools.SHIVEPOOL
  (amount * (1 / 2) + fromPool) / totalPool - 1 / 2

/-- The adjusted base fee computed inside `calculateFee`:
`max(BASE_FEE * (1 - 2*|diff|), MIN_BASE_FEE)`. -/
def adjustedBaseFee (fc : FeeConfig) (pools : PoolState) (amount : ℚ)
    (fromToken : Token) : ℚ :=
  max (fc.BASE_FEE * (1 - 2 * |poolDiff pools amount fromToken|)) fc.MIN_BASE_FEE

/-- The diff-adjusted price computed inside `calculateFee`. -/
def swapPrice (fc : FeeConfig) (pools : PoolState) (amount : ℚ)
    (fromToken : Token) : ℚ :=
  let diff := poolDiff pools amount fromToken
  if fromToken = .HIVE then
    fc.BASE_PRICE_HIVE_TO_SHIVE - 2 * diff * fc.DIFF_COEFFICIENT
  else
    1 / fc.BASE_PRICE_HIVE_TO_SHIVE - 2 * diff * fc.DIFF_COEFFICIENT

/-- Result record of `calculateFee`.  In the non-positive guard branch
the source returns an object without an `expectedOutput` field; that
absent field is modelled by `none`. -/
structure FeeResult where
  feeAmount : ℚ
  feePercent : ℚ
  expectedOutput : Option ℚ
deriving DecidableEq

/-- `calculateFee` from `config.js`. -/
def calculateFee (fc : FeeConfig) (pools : PoolState) (amount : ℚ)
    (fromToken : Token) : FeeResult :=
  if Utils.isPositiveNumber amount then
    let adjusted_base_fee := adjustedBaseFee fc pools amount fromToken
    let price := swapPrice fc pools amount fromToken
    let expectedOutput := (amount * price) * (1 - adjusted_base_fee)
    let feeAmount := amount * adjusted_base_fee
    let feePercent := adjusted_base_fee * 100
    { feeAmount := Utils.roundTo (.num feeAmount) 8
      feePercent := Utils.roundTo (.num feePercent) 4
      expectedOutput := some (Utils.roundTo (.num expectedOutput) 8) }
  else
    { feeAmount := 0, feePercent := 0, expectedOutput := none }

/-- Result record of `calculateExpectedOutput`. -/
structure ExpectedResult where
  expected : ℚ
  fee : ℚ
  feePercent : ℚ
deriving DecidableEq

/-- `calculateExpectedOutput` from `config.js`:
`Math.floor(expectedOutput * DECIMAL) / DECIMAL` on the 8-dp-rounded
output of `calculateFee`. -/
def calculateExpectedOutput (fc : FeeConfig) (pools : PoolState)
    (inputAmount : ℚ) (fromToken : Token) : ExpectedResult :=
  if Utils.isPositiveNumber inputAmount then
    let result := calculateFee fc pools inputAmount fromToken
    { expected :=
        ((⌊(result.expectedOutput.getD 0) * CONFIG.DECIMAL⌋ : ℤ) : ℚ) / CONFIG.DECIMAL
      fee := result.feeAmount
      feePercent := result.feePercent }
  else
    { expected := 0, fee := 0, feePercent := 0 }

/-- The live quote (`currentSwap` in `config.js`).  The source names the
first two fields `from` and `to`. -/
structure CurrentSwap where
  fromToken : Token
  toToken : Token
  amount : ℚ
  expected : ℚ
  fee : ℚ
  feePercent : ℚ
  slippage : ℚ
  minReceive : ℚ
deriving DecidableEq

/-- `updateSwapCalculation` from `config.js` (the quote-producing part;
UI calls are side-effect-free for the returned quote).  `0.01` is the
slippage default in the source. -/
def updateSwapCalculation (fc : FeeConfig) (pools : PoolState) (amount : JSVal)
    (fromToken toToken : Token) (slippage : JSVal) : CurrentSwap :=
  let amt := Utils.parseNumber amount 0
  let slip := Utils.parseNumber slippage (1 / 100)
  let result := calculateExpectedOutput fc pools amt fromToken
  let slippageFactor := 1 - slip / 100
  { fromToken := fromToken
    toToken := toToken
    amount := amt
    expected := result.expected
    fee := result.fee
    feePercent := result.feePercent
    slippage := slip
    minReceive := Utils.roundTo (.num (Utils.safeMultiply result.expected slippageFactor)) 3 }

/-- Modelled from the spec: the pricing algorithm exactly as the
specification words it — `diff = (amountIn*0.5 + fromPool)/totalPool -
0.5`, `adjustedFee = max(baseFee*(1 - 2*|diff|), minBaseFee)`, `price =
basePrice - 2*diff*diffCoefficient` when the input token is the primary
token and `1/basePrice - 2*diff*diffCoefficient` otherwise, and output
`amountIn * price * (1 - adjustedFee)` rounded to 8 decimal places
internally and floored to 3 decimal places for display.  Used only as
the reference side of the refinement claim. -/
def specExpectedOutput (fc : FeeConfig) (pools : PoolState) (amountIn : ℚ)
    (fromToken : Token) : ℚ :=
  let fromPool := if fromToken = .HIVE then pools.HIVEPOOL else pools.SHIVEPOOL
  let totalPool := pools.HIVEPOOL + pools.SHIVEPOOL
  let diff := (amountIn * (1 / 2) + fromPool) / totalPool - 1 / 2
  let adjustedFee := max (fc.BASE_FEE * (1 - 2 * |diff|)) fc.MIN_BASE_FEE
  let price :=
    if fromToken = .HIVE then
      fc.BASE_PRICE_HIVE_TO_SHIVE - 2 * diff * fc.DIFF_COEFFICIENT
    else
      1 / fc.BASE_PRICE_HIVE_TO_SHIVE - 2 * diff * fc.DIFF_COEFFICIENT
  let internal := Utils.roundTo (.num (amountIn * price * (1 - adjustedFee))) 8
  Utils.floorTo (.num internal) 3

/-! ### String helpers: JS `includes` and the memo regex -/

/-- Whether `pat` is an initial segment of `l`. -/
def isPrefixList {α : Type} [DecidableEq α] : List α → List α → Bool
  | [], _ => true
  | _ :: _, [] => false
  | a :: pat, b :: l => if a = b then isPrefixList pat l else false

/-- Whether `pat` occurs contiguously inside `l`. -/
def containsList {α : Type} [DecidableEq α] (pat : List α) : List α → Bool
  | [] => isPrefixList pat []
  | a :: l => isPrefixList pat (a :: l) || containsList pat l

/-- JS `s.includes(pat)`. -/
def strIncludes (s pat : String) : Bool := containsList pat.data s.data

/-- One character of the regex class `[\d.]`. -/
def isDigitOrDot (c : Char) : Bool := c.isDigit || c = '.'

/-- One character of the regex class `\s` (the whitespace the memos can
contain). -/
def isSpaceChar (c : Char) : Bool := c = ' ' || c = '\t' || c = '\n' || c = '\r'

/-- Consume `\s*`. -/
def skipSpaces : List Char → List Char
  | [] => []
  | c :: rest => if isSpaceChar c then skipSpaces rest else c :: rest

/-- Try to match `<pat>\s*:\s*([\d.]+)` at the head of the character
list, returning the capture group. -/
def matchLabeled (pat : List Char) (l : List Char) : Option String :=
  if isPrefixList pat l then
    match skipSpaces (l.drop pat.length) with
    | ':' :: r2 =>
      let run := (skipSpaces r2).takeWhile isDigitOrDot
      if run.isEmpty then none else some (String.mk run)
    | _ => none
  else none

/-- First match of `<pat>\s*:\s*([\d.]+)` scanning left to right, the
semantics of `String.prototype.match` with a non-global regex. -/
def findLabeled (pat : List Char) : List Char → Option String
  | [] => matchLabeled pat []
  | c :: rest =>
    match matchLabeled pat (c :: rest) with
    | some r => some r
    | none => findLabeled pat rest

/-- `memo.match(/Swapped Qty\s*:\s*([\d.]+)/)`, capture group 1. -/
def parseSwappedQty (memo : String) : Option String :=
  findLabeled ("Swapped Qty").data memo.data

/-- `memo.match(/Swapped Price\s*:\s*([\d.]+)/)`, capture group 1. -/
def parseSwappedPrice (memo : String) : Option String :=
  findLabeled ("Swapped Price").data memo.data

/-- JS `Number.prototype.toFixed(d)` on exact rationals: per ECMA, the
sign is taken from the value and the magnitude is rounded half up at
`d` decimals, rendered with exactly `d` fraction digits. -/
def toFixed (q : ℚ) (d : ℕ) : String :=
  let sign := if q < 0 then "-" else ""
  let n : ℕ := (⌊|q| * 10 ^ d + 1 / 2⌋).toNat
  let intPart : ℕ := n / 10 ^ d
  let fracPart : ℕ := n % 10 ^ d
  if d = 0 then
    sign ++ toString intPart
  else
    let fs := toString fracPart
    let pad := String.mk (List.replicate (d - fs.length) '0')
    sign ++ toString intPart ++ "." ++ pad ++ fs

/-! ### Swap records and the bridge-account history model -/

/-- The status enum of a persisted swap record: `'pending'`,
`'completed'`, `'refunded'`, `'not-sent'`. -/
inductive Status
  | pending
  | completed
  | refunded
  | notSent
deriving DecidableEq

/-- A persisted SwapRecord (`swapRecord` in `addSwapToHistory`).
`swappedQty`/`swappedPrice` are absent until completion (`none`). -/
structure SwapRecord where
  timestamp : ℤ
  txIdSent : String
  amountSent : String
  fromToken : Token
  toToken : Token
  username : String
  status : Status
  txIdReceived : Option String
  amountReceived : Option String
  swappedQty : Option String := none
  swappedPrice : Option String := none
deriving DecidableEq

/-- Parsed `contractPayload` of an `ssc-mainnet-hive` custom-json
operation (the shape `checkUswapEngineTransfers` inspects). -/
structure EnginePayload where
  contractName : String
  contractAction : String
  toUser : String
  symbol : String
  quantity : String
  memo : String
deriving DecidableEq

/-- The `op` field of a bridge-account history item.  For a custom-json
operation, `none` as payload models a `JSON.parse` failure. -/
inductive OpData
  | transfer (source target amount memo : String)
  | customJson (id : String) (payload : Option EnginePayload)
  | other
deriving DecidableEq

/-- One item of `getAccountHistory` (`[index, {trx_id, op, ...}]`). -/
structure HistoryItem where
  trxId : String
  op : OpData
deriving DecidableEq

/-- Result object of the two transfer-history checkers:
`{found: false}` or the found-transfer details. -/
structure CheckResult where
  found : Bool
  amount : Option String := none
  txId : Option String := none
  swappedQty : Option String := none
  swappedPrice : Option String := none
  memo : Option String := none
deriving DecidableEq

/-- The filter of `checkUswapHiveTransfers`: a direct transfer from the
bridge user to `username`. -/
def isBridgeTransferTo (username : String) (item : HistoryItem) : Bool :=
  match item.op with
  | .transfer source target _ _ => source == CONFIG.BRIDGE_USER && target == username
  | _ => false

/-- The scan loop of `checkUswapHiveTransfers`
(`for (let i = transfersToUser.length - 1; i >= 0; i--)`), applied to
the already-reversed filtered list: first transfer whose memo contains
the original transaction id. -/
def scanTransfers (originalTxId : String) : List HistoryItem → CheckResult
  | [] => { found := false }
  | item :: rest =>
    match item.op with
    | .transfer _ _ amount memo =>
      if strIncludes memo originalTxId then
        { found := true
          amount := some amount
          txId := some item.trxId
          swappedQty := parseSwappedQty memo
          swappedPrice := parseSwappedPrice memo
          memo := some memo }
      else scanTransfers originalTxId rest
    | _ => scanTransfers originalTxId rest

/-- `checkUswapHiveTransfers` from `config.js`.  The history argument
is the outcome of `getAccountHistoryAsync`; `error` (a network failure)
is caught and yields `{found: false}`. -/
def checkUswapHiveTransfers (originalTxId username : String)
    (history : Except Unit (List HistoryItem)) : CheckResult :=
  match history with
  | .error _ => { found := false }
  | .ok h =>
    scanTransfers originalTxId ((h.filter (isBridgeTransferTo username)).reverse)

/-- The filter of `checkUswapEngineTransfers`: a custom-json operation
with id `ssc-mainnet-hive`. -/
def isSscCustomJson (item : HistoryItem) : Bool :=
  match item.op with
  | .customJson id _ => id == "ssc-mainnet-hive"
  | _ => false

/-- The scan loop of `checkUswapEngineTransfers` on the reversed
filtered list: parse failures continue the scan; a parsed token
transfer of SWAP.HIVE to the user whose memo contains the original
transaction id completes it. -/
def scanEngineOps (originalTxId username : String) : List HistoryItem → CheckResult
  | [] => { found := false }
  | item :: rest =>
    match item.op with
    | .customJson _ payload =>
      match payload with
      | none => scanEngineOps originalTxId username rest
      | some json =>
        if json.contractName == "tokens" && json.contractAction == "transfer"
            && json.toUser == username && json.symbol == "SWAP.HIVE" then
          if strIncludes json.memo originalTxId then
            { found := true
              amount := some (json.quantity ++ " SWAP.HIVE")
              txId := some item.trxId
              swappedQty := parseSwappedQty json.memo
              swappedPrice := parseSwappedPrice json.memo
              memo := some json.memo }
          else scanEngineOps originalTxId username rest
        else scanEngineOps originalTxId username rest
    | _ => scanEngineOps originalTxId username rest

/-- `checkUswapEngineTransfers` from `config.js`. -/
def checkUswapEngineTransfers (originalTxId username : String)
    (history : Except Unit (List HistoryItem)) : CheckResult :=
  match history with
  | .error _ => { found := false }
  | .ok h =>
    scanEngineOps originalTxId username ((h.filter isSscCustomJson).reverse)

/-- `verifyTransactionExists` from `config.js`.  The raw query outcome:
`error` is a network failure / rejected promise (caught, yielding
`false`), `ok none` a null or id-less response (not found), `ok (some
())` a transaction object.  Both ledger branches convert the outcome
the same way. -/
def verifyTransactionExists (fromToken : Token)
    (raw : Except Unit (Option Unit)) : Bool :=
  match fromToken, raw with
  | _, .error _ => false
  | _, .ok none => false
  | _, .ok (some _) => true

/-- The remote-query outcomes one iteration of the `loadSwapHistory`
loop can consume: the history fetched for the terminal-record backfill,
the history fetched for the completion check, the history fetched for
the refund check, and the raw transaction-by-id lookup. -/
structure StepOracle where
  backfillHist : Except Unit (List HistoryItem)
  completeHist : Except Unit (List HistoryItem)
  refundHist : Except Unit (List HistoryItem)
  txRaw : Except Unit (Option Unit)

/-- The placeholder counterpart ids that trigger the backfill re-query. -/
def isPlaceholderTxId (t : Option String) : Prop :=
  t = some "uswap-transfer" ∨ t = some "uswap-refund"

instance (t : Option String) : Decidable (isPlaceholderTxId t) := by
  unfold isPlaceholderTxId; exact inferInstance

/-- The first block of the `loadSwapHistory` loop body: a terminal
(completed/refunded) record whose counterpart id is a placeholder is
re-queried once to backfill the real counterpart id; the status is not
touched. -/
def backfillTxId (o : StepOracle) (swap : SwapRecord) : SwapRecord :=
  if (swap.status = .completed ∨ swap.status = .refunded)
      ∧ isPlaceholderTxId swap.txIdReceived then
    let result :=
      if swap.toToken = .HIVE then
        checkUswapHiveTransfers swap.txIdSent swap.username o.backfillHist
      else
        checkUswapEngineTransfers swap.txIdSent swap.username o.backfillHist
    if result.found then { swap with txIdReceived := result.txId } else swap
  else swap

/-- The second block of the `loadSwapHistory` loop body: a pending
record runs the completion check, then the refund check, then (inside
the 30-second-to-10-minute age window) the origin-ledger existence
check. -/
def resolvePending (now : ℤ) (o : StepOracle) (swap : SwapRecord) : SwapRecord :=
  if swap.status = .pending then
    let result :=
      if swap.toToken = .HIVE then
        checkUswapHiveTransfers swap.txIdSent swap.username o.completeHist
      else
        checkUswapEngineTransfers swap.txIdSent swap.username o.completeHist
    if result.found then
      { swap with
        status := .completed
        amountReceived := result.amount
        txIdReceived := result.txId
        swappedQty := result.swappedQty
        swappedPrice := result.swappedPrice }
    else
      let refund :=
        if swap.fromToken = .HIVE then
          checkUswapHiveTransfers swap.txIdSent swap.username o.refundHist
        else
          checkUswapEngineTransfers swap.txIdSent swap.username o.refundHist
      if refund.found then
        { swap with
          status := .refunded
          amountReceived := refund.amount
          txIdReceived := refund.txId }
      else
        let swapAge := now - swap.timestamp
        let minimumWaitTime : ℤ := 30 * 1000
        let maximumWaitTime : ℤ := 10 * 60 * 1000
        if minimumWaitTime < swapAge ∧ swapAge < maximumWaitTime then
          if ¬ verifyTransactionExists swap.fromToken o.txRaw then
            { swap with status := .notSent }
          else swap
        else swap
  else swap

/-- One iteration of the `for (let swap of userHistory)` loop of
`loadSwapHistory`: the backfill block followed by the pending-record
resolution block. -/
def resolveSwapRecord (now : ℤ) (o : StepOracle) (swap : SwapRecord) : SwapRecord :=
  resolvePending now o (backfillTxId o swap)

/-- The loop of `loadSwapHistory`: each record of the stored history
whose username matches is resolved (consuming the next oracle, indexed
by its position among the user's records); other records are left
alone. -/
def loadSwapHistoryAux (username : String) (now : ℤ) (oracles : ℕ → StepOracle)
    (i : ℕ) : List SwapRecord → List SwapRecord
  | [] => []
  | r :: rest =>
    if r.username == username then
      resolveSwapRecord now (oracles i) r ::
        loadSwapHistoryAux username now oracles (i + 1) rest
    else
      r :: loadSwapHistoryAux username now oracles i rest

/-- `loadSwapHistory` from `config.js`: returns the updated stored
history (what is written back to localStorage) and the first 10 of the
user's records (the return value).  An empty username returns `[]`
without touching the store. -/
def loadSwapHistory (username : String) (now : ℤ) (oracles : ℕ → StepOracle)
    (history : List SwapRecord) : List SwapRecord × List SwapRecord :=
  if username == "" then
    (history, [])
  else
    let newHistory := loadSwapHistoryAux username now oracles 0 history
    (newHistory, (newHistory.filter (fun h => h.username == username)).take 10)

/-! ### Submission: `addSwapToHistory` and the `executeSwap` transfer -/

/-- The SwapRecord built at submission time inside `addSwapToHistory`
(`${amount.toFixed(3)} ${fromToken}` as `amountSent`). -/
def mkSwapRecord (txId : String) (amount : ℚ) (fromToken : Token)
    (username : String) (nowMs : ℤ) : SwapRecord :=
  { timestamp := nowMs
    txIdSent := txId
    amountSent := toFixed amount 3 ++ " " ++ tokenStr fromToken
    fromToken := fromToken
    toToken := if fromToken = .HIVE then .SWAPHIVE else .HIVE
    username := username
    status := .pending
    txIdReceived := none
    amountReceived := none }

/-- `addSwapToHistory` from `config.js`: prepend the new record, keep
the first 10 records of this user followed by everyone else's
records. -/
def addSwapToHistory (txId : String) (amount : ℚ) (fromToken : Token)
    (username : String) (nowMs : ℤ) (stored : List SwapRecord) : List SwapRecord :=
  let history := mkSwapRecord txId amount fromToken username nowMs :: stored
  let userHistory := (history.filter (fun h => h.username == username)).take 10
  let otherHistory := history.filter (fun h => !(h.username == username))
  userHistory ++ otherHistory

/-- Parameters of one `addSwapToHistory` invocation. -/
structure SwapInput where
  txId : String
  amount : ℚ
  fromToken : Token
  nowMs : ℤ
deriving DecidableEq

/-- A sequence of `addSwapToHistory` invocations for one username. -/
def submitAll (username : String) (inputs : List SwapInput)
    (stored : List SwapRecord) : List SwapRecord :=
  inputs.foldl
    (fun h p => addSwapToHistory p.txId p.amount p.fromToken username p.nowMs h)
    stored

/-- The user's records in a stored history, in storage order. -/
def recordsFor (username : String) (history : List SwapRecord) : List SwapRecord :=
  history.filter (fun h => h.username == username)

/-- Everyone else's records in a stored history, in storage order. -/
def recordsNotFor (username : String) (history : List SwapRecord) : List SwapRecord :=
  history.filter (fun h => !(h.username == username))

/-- The signing-service request assembled by `executeSwap`: recipient
is the bridge account, the memo is the 3-decimal-formatted
`minReceive`, and the amount is the 3-decimal-formatted input amount
(the same fields whether it is sent as a direct transfer or as the
custom-json `contractPayload`). -/
structure TransferRequest where
  username : String
  recipient : String
  amount : String
  memo : String
  asset : String
deriving DecidableEq

/-- The request `executeSwap` hands to the signing service. -/
def executeSwapTransfer (sw : CurrentSwap) (username : String) : TransferRequest :=
  let minReceiveFormatted := toFixed (Utils.roundTo (.num sw.minReceive) 3) 3
  let memo := minReceiveFormatted
  if sw.fromToken = .HIVE then
    { username := username
      recipient := CONFIG.BRIDGE_USER
      amount := toFixed (Utils.roundTo (.num sw.amount) 3) 3
      memo := memo
      asset := "HIVE" }
  else
    { username := username
      recipient := CONFIG.BRIDGE_USER
      amount := toFixed (Utils.roundTo (.num sw.amount) 3) 3
      memo := memo
      asset := "SWAP.HIVE" }

/-! ## Supporting lemmas -/

/-- `roundTo` at `d` decimals never exceeds a `d`-decimal bound lying
above its argument. -/
theorem roundTo_le_of_le (x : ℚ) (M : ℤ) (d : ℕ) (h : x ≤ (M : ℚ) / 10 ^ d) :
    Utils.roundTo (.num x) d ≤ (M : ℚ) / 10 ^ d := by
  unfold Utils.roundTo Utils.jsRound
  have hpow : (0 : ℚ) < 10 ^ d := by positivity
  have hx : x * 10 ^ d ≤ (M : ℚ) := by
    calc x * 10 ^ d ≤ ((M : ℚ) / 10 ^ d) * 10 ^ d := by
          exact mul_le_mul_of_nonneg_right h (le_of_lt hpow)
      _ = (M : ℚ) := by field_simp
  have hfl : ⌊x * 10 ^ d + 1 / 2⌋ ≤ M := by
    have : x * 10 ^ d + 1 / 2 < (M : ℚ) + 1 := by linarith
    have := Int.floor_lt.mpr (by push_cast; linarith : x * 10 ^ d + 1 / 2 < ((M + 1 : ℤ) : ℚ))
    omega
  have hco : ((⌊x * 10 ^ d + 1 / 2⌋ : ℤ) : ℚ) ≤ (M : ℚ) := by exact_mod_cast hfl
  exact div_le_div_of_nonneg_right hco hpow.le

/-- `roundTo` is the identity on values with at most `d` decimals. -/
theorem roundTo_int_div_pow (M : ℤ) (d : ℕ) :
    Utils.roundTo (.num ((M : ℚ) / 10 ^ d)) d = (M : ℚ) / 10 ^ d := by
  have hpow : (0 : ℚ) < 10 ^ d := by positivity
  have h1 : ((M : ℚ) / 10 ^ d) * 10 ^ d = (M : ℚ) := by field_simp
  simp only [Utils.roundTo, Utils.jsRound, h1]
  rw [add_comm, Int.floor_add_int]
  norm_num

/-- The `expected` field of every quote is an integer multiple of one
thousandth. -/
theorem expected_thousandths (fc : FeeConfig) (pools : PoolState) (a : ℚ)
    (t : Token) :
    ∃ M : ℤ, (calculateExpectedOutput fc pools a t).expected = (M : ℚ) / 10 ^ 3 := by
  unfold calculateExpectedOutput
  by_cases h : Utils.isPositiveNumber a = true
  · rw [if_pos h]
    exact ⟨⌊(calculateFee fc pools a t).expectedOutput.getD 0 * CONFIG.DECIMAL⌋, by
      norm_num [CONFIG.DECIMAL]⟩
  · rw [if_neg h]
    exact ⟨0, by norm_num⟩

/-! ## Claims -/

/-- C10: the numeric helpers are total functions that never throw:
`Utils.roundTo` and `Utils.floorTo` return `0` whenever the value is
not a number or is `NaN`, for any decimals argument, and
`Utils.safeDivide` returns `0` whenever the divisor is `0`.  (Totality
is intrinsic to the Lean model: every function here is a total
computable function.) -/
theorem numeric_helpers_total :
    (∀ d : ℕ, Utils.roundTo .nan d = 0 ∧ Utils.roundTo .nonNumber d = 0
      ∧ Utils.floorTo .nan d = 0 ∧ Utils.floorTo .nonNumber d = 0)
    ∧ (∀ a : ℚ, Utils.safeDivide a 0 = 0) := by
  refine ⟨fun d => ⟨rfl, rfl, rfl, rfl⟩, fun a => ?_⟩
  simp [Utils.safeDivide]

/-- C1: for every finite positive `amountIn`,
`calculateExpectedOutput` computes exactly the spec's pricing
algorithm (imbalance `diff`, adjusted fee floored at `minBaseFee`, the
asymmetric price, 8-decimal internal rounding, 3-decimal floor for
display); in particular, with the default configuration (baseFee
0.002, minBaseFee 0.00075, diffCoefficient 0.00575, basePrice 1.00,
both pools 24900) the expected output for 100 units of the primary
token is exactly 99.799. -/
theorem calculateExpectedOutput_matches_spec (fc : FeeConfig) (pools : PoolState)
    (amountIn : ℚ) (fromToken : Token) (h : 0 < amountIn) :
    (calculateExpectedOutput fc pools amountIn fromToken).expected
        = specExpectedOutput fc pools amountIn fromToken
    ∧ (calculateExpectedOutput defaultFeeConfig defaultPools 100 Token.HIVE).expected
        = 99799 / 1000 := by
  constructor
  · have hpos : Utils.isPositiveNumber amountIn = true := by
      simp [Utils.isPositiveNumber, h]
    simp only [calculateExpectedOutput, calculateFee, hpos, if_true,
      specExpectedOutput, adjustedBaseFee, swapPrice, poolDiff,
      Utils.floorTo, Option.getD, CONFIG.DECIMAL]
    norm_num
  · norm_num [calculateExpectedOutput, calculateFee, adjustedBaseFee, swapPrice,
      poolDiff, Utils.roundTo, Utils.jsRound, Utils.isPositiveNumber,
      defaultFeeConfig, defaultPools, CONFIG.BASE_FEE, CONFIG.MIN_BASE_FEE,
      CONFIG.DIFF_COEFFICIENT, CONFIG.BASE_PRICE_HIVE_TO_SHIVE,
      CONFIG.HIVEPOOL, CONFIG.SHIVEPOOL, CONFIG.DECIMAL, abs]

/-- Witness for C1 at `amountIn = 100`. -/
theorem calculateExpectedOutput_matches_spec_witness :
    (calculateExpectedOutput defaultFeeConfig defaultPools 100 Token.HIVE).expected
        = specExpectedOutput defaultFeeConfig defaultPools 100 Token.HIVE
    ∧ (calculateExpectedOutput defaultFeeConfig defaultPools 100 Token.HIVE).expected
        = 99799 / 1000 :=
  calculateExpectedOutput_matches_spec defaultFeeConfig defaultPools 100 Token.HIVE
    (by norm_num)

/-- C2 counterexample: at amount 100 (primary token) and slippage
0.25 the quote's `minReceive` is 99.55 (`Utils.roundTo` rounds half
up), whereas flooring the product to 3 decimal places would give
99.549 — so `minReceive` is not the floored product. -/
theorem minReceive_not_floored :
    ¬ ((updateSwapCalculation defaultFeeConfig defaultPools (.num 100)
          Token.HIVE Token.SWAPHIVE (.num (1 / 4))).minReceive
        = Utils.floorTo
            (.num ((updateSwapCalculation defaultFeeConfig defaultPools (.num 100)
                Token.HIVE Token.SWAPHIVE (.num (1 / 4))).expected
              * (1 - (updateSwapCalculation defaultFeeConfig defaultPools (.num 100)
                  Token.HIVE Token.SWAPHIVE (.num (1 / 4))).slippage / 100))) 3) := by
  norm_num [updateSwapCalculation, Utils.parseNumber, calculateExpectedOutput,
    calculateFee, adjustedBaseFee, swapPrice, poolDiff, Utils.roundTo,
    Utils.floorTo, Utils.safeMultiply, Utils.jsRound, Utils.isPositiveNumber,
    defaultFeeConfig, defaultPools, CONFIG.BASE_FEE, CONFIG.MIN_BASE_FEE,
    CONFIG.DIFF_COEFFICIENT, CONFIG.BASE_PRICE_HIVE_TO_SHIVE,
    CONFIG.HIVEPOOL, CONFIG.SHIVEPOOL, CONFIG.DECIMAL, abs]

/-- How `updateSwapCalculation` assembles `minReceive` from its own
`expected` and `slippage` fields (shared helper). -/
theorem minReceive_formula (fc : FeeConfig) (pools : PoolState) (amount : JSVal)
    (fromToken toToken : Token) (slippage : JSVal) :
    (updateSwapCalculation fc pools amount fromToken toToken slippage).minReceive
      = Utils.roundTo
          (.num (Utils.safeMultiply
            (updateSwapCalculation fc pools amount fromToken toToken slippage).expected
            (1 - (updateSwapCalculation fc pools amount fromToken toToken
                slippage).slippage / 100))) 3 := rfl

/-- C2 amended: for every quote produced by `updateSwapCalculation`,
`minReceive` equals the expected output multiplied by
`(1 - slippage/100)`, the product rounded (half up) at 8 decimal
places (`safeMultiply`) and then rounded (half up, not floored) at 3
decimal places. -/
theorem minReceive_rounded (fc : FeeConfig) (pools : PoolState) (amount : JSVal)
    (fromToken toToken : Token) (slippage : JSVal) :
    (updateSwapCalculation fc pools amount fromToken toToken slippage).minReceive
      = Utils.roundTo
          (.num (Utils.safeMultiply
            (updateSwapCalculation fc pools amount fromToken toToken slippage).expected
            (1 - (updateSwapCalculation fc pools amount fromToken toToken
                slippage).slippage / 100))) 3 :=
  minReceive_formula fc pools amount fromToken toToken slippage

/-- C3 counterexample: two quotes with finite positive amount and
nonnegative slippage violating the claimed law.  At amount 100 and
slippage 0.0001 the slippage is positive yet `minReceive = expectedOut`
(so equality does not force slippage = 0), and at amount 10000000 and
slippage 5 the expected output is negative and
`minReceive > expectedOut` (so even the inequality fails as stated). -/
theorem minReceive_law_fails :
    ((updateSwapCalculation defaultFeeConfig defaultPools (.num 100)
        Token.HIVE Token.SWAPHIVE (.num (1 / 10000))).slippage ≠ 0
      ∧ (updateSwapCalculation defaultFeeConfig defaultPools (.num 100)
          Token.HIVE Token.SWAPHIVE (.num (1 / 10000))).minReceive
        = (updateSwapCalculation defaultFeeConfig defaultPools (.num 100)
            Token.HIVE Token.SWAPHIVE (.num (1 / 10000))).expected)
    ∧ (0 < (updateSwapCalculation defaultFeeConfig defaultPools (.num 10000000)
          Token.HIVE Token.SWAPHIVE (.num 5)).amount
      ∧ 0 ≤ (updateSwapCalculation defaultFeeConfig defaultPools (.num 10000000)
          Token.HIVE Token.SWAPHIVE (.num 5)).slippage
      ∧ (updateSwapCalculation defaultFeeConfig defaultPools (.num 10000000)
          Token.HIVE Token.SWAPHIVE (.num 5)).expected
        < (updateSwapCalculation defaultFeeConfig defaultPools (.num 10000000)
            Token.HIVE Token.SWAPHIVE (.num 5)).minReceive) := by
  norm_num [updateSwapCalculation, Utils.parseNumber, calculateExpectedOutput,
    calculateFee, adjustedBaseFee, swapPrice, poolDiff, Utils.roundTo,
    Utils.floorTo, Utils.safeMultiply, Utils.jsRound, Utils.isPositiveNumber,
    defaultFeeConfig, defaultPools, CONFIG.BASE_FEE, CONFIG.MIN_BASE_FEE,
    CONFIG.DIFF_COEFFICIENT, CONFIG.BASE_PRICE_HIVE_TO_SHIVE,
    CONFIG.HIVEPOOL, CONFIG.SHIVEPOOL, CONFIG.DECIMAL, abs]

/-- C3 amended: for every quote whose expected output is nonnegative
and whose slippage is nonnegative, `minReceive ≤ expectedOut`, and
slippage = 0 implies equality.  (Equality is however not exclusive to
slippage = 0 — it also occurs at small positive slippages — and for
quotes with negative expected output `minReceive` can exceed
`expectedOut`; see the counterexample.) -/
theorem minReceive_law (fc : FeeConfig) (pools : PoolState) (amount : JSVal)
    (fromToken toToken : Token) (slippage : JSVal)
    (hexp : 0 ≤ (updateSwapCalculation fc pools amount fromToken toToken
        slippage).expected)
    (hslip : 0 ≤ (updateSwapCalculation fc pools amount fromToken toToken
        slippage).slippage) :
    (updateSwapCalculation fc pools amount fromToken toToken slippage).minReceive
        ≤ (updateSwapCalculation fc pools amount fromToken toToken slippage).expected
    ∧ ((updateSwapCalculation fc pools amount fromToken toToken slippage).slippage = 0 →
        (updateSwapCalculation fc pools amount fromToken toToken slippage).minReceive
          = (updateSwapCalculation fc pools amount fromToken toToken
              slippage).expected) := by
  obtain ⟨M, hM⟩ := expected_thousandths fc pools
    (Utils.parseNumber amount 0) fromToken
  have hE : (updateSwapCalculation fc pools amount fromToken toToken
      slippage).expected = (M : ℚ) / 10 ^ 3 := hM
  have hS : (updateSwapCalculation fc pools amount fromToken toToken
      slippage).slippage = Utils.parseNumber slippage (1 / 100) := rfl
  have hMR := minReceive_formula fc pools amount fromToken toToken slippage
  rw [hE, hS] at hMR
  rw [hE] at hexp
  rw [hS] at hslip
  have hE8 : ((M : ℚ) / 10 ^ 3) = ((M * 10 ^ 5 : ℤ) : ℚ) / 10 ^ 8 := by
    push_cast
    ring
  constructor
  · rw [hMR, hE]
    apply roundTo_le_of_le
    unfold Utils.safeMultiply
    rw [hE8]
    apply roundTo_le_of_le
    rw [← hE8]
    have h1 : 1 - Utils.parseNumber slippage (1 / 100) / 100 ≤ 1 := by linarith
    exact mul_le_of_le_one_right hexp h1
  · intro hs0
    rw [hS] at hs0
    rw [hs0] at hMR
    rw [hMR, hE]
    unfold Utils.safeMultiply
    have h2 : (M : ℚ) / 10 ^ 3 * (1 - 0 / 100)
        = ((M * 10 ^ 5 : ℤ) : ℚ) / 10 ^ 8 := by
      push_cast
      ring
    rw [h2, roundTo_int_div_pow, ← hE8, roundTo_int_div_pow]

/-- Witness for C3 amended at amount 100, slippage 0: the hypotheses
hold (expected = 99.799 ≥ 0, slippage = 0 ≥ 0) and
`minReceive = expectedOut`. -/
theorem minReceive_law_witness :
    (updateSwapCalculation defaultFeeConfig defaultPools (.num 100)
        Token.HIVE Token.SWAPHIVE (.num 0)).minReceive
      ≤ (updateSwapCalculation defaultFeeConfig defaultPools (.num 100)
          Token.HIVE Token.SWAPHIVE (.num 0)).expected
    ∧ ((updateSwapCalculation defaultFeeConfig defaultPools (.num 100)
        Token.HIVE Token.SWAPHIVE (.num 0)).slippage = 0 →
      (updateSwapCalculation defaultFeeConfig defaultPools (.num 100)
          Token.HIVE Token.SWAPHIVE (.num 0)).minReceive
        = (updateSwapCalculation defaultFeeConfig defaultPools (.num 100)
            Token.HIVE Token.SWAPHIVE (.num 0)).expected) :=
  minReceive_law defaultFeeConfig defaultPools (.num 100)
    Token.HIVE Token.SWAPHIVE (.num 0)
    (by norm_num [updateSwapCalculation, Utils.parseNumber, calculateExpectedOutput,
      calculateFee, adjustedBaseFee, swapPrice, poolDiff, Utils.roundTo,
      Utils.jsRound, Utils.isPositiveNumber, defaultFeeConfig, defaultPools,
      CONFIG.BASE_FEE, CONFIG.MIN_BASE_FEE, CONFIG.DIFF_COEFFICIENT,
      CONFIG.BASE_PRICE_HIVE_TO_SHIVE, CONFIG.HIVEPOOL, CONFIG.SHIVEPOOL,
      CONFIG.DECIMAL, abs])
    (by norm_num [updateSwapCalculation, Utils.parseNumber])

/-- C4 counterexample: with the default configuration, the trade of
100 primary-token units produces a strictly smaller pool imbalance
`|diff|` than the trade of 10000 units, yet its adjusted fee (exposed
as `feePercent/100`) is strictly larger — the adjusted fee *increases*
as `|diff|` decreases, contradicting the claimed direction of
monotonicity. -/
theorem fee_monotonicity_fails :
    |poolDiff defaultPools 100 Token.HIVE|
        < |poolDiff defaultPools 10000 Token.HIVE|
    ∧ (calculateFee defaultFeeConfig defaultPools 10000 Token.HIVE).feePercent / 100
        < (calculateFee defaultFeeConfig defaultPools 100 Token.HIVE).feePercent
            / 100 := by
  norm_num [calculateFee, adjustedBaseFee, swapPrice, poolDiff, Utils.roundTo,
    Utils.jsRound, Utils.isPositiveNumber, defaultFeeConfig, defaultPools,
    CONFIG.BASE_FEE, CONFIG.MIN_BASE_FEE, CONFIG.DIFF_COEFFICIENT,
    CONFIG.BASE_PRICE_HIVE_TO_SHIVE, CONFIG.HIVEPOOL, CONFIG.SHIVEPOOL, abs]

/-- C4 amended: for a fixed fee configuration with nonnegative base
fee and fixed pools, the adjusted fee is always at least
`MIN_BASE_FEE`, and it is non-DEcreasing as `|diff|` decreases
(equivalently, non-increasing in `|diff|`); `calculateFee` exposes it
as `feePercent`, the 4-decimal rounding of `adjustedFee * 100`. -/
theorem adjustedFee_bounds (fc : FeeConfig) (pools : PoolState) (a₁ a₂ : ℚ)
    (t : Token) (hb : 0 ≤ fc.BASE_FEE)
    (hd : |poolDiff pools a₁ t| ≤ |poolDiff pools a₂ t|) (h₁ : 0 < a₁) :
    fc.MIN_BASE_FEE ≤ adjustedBaseFee fc pools a₁ t
    ∧ adjustedBaseFee fc pools a₂ t ≤ adjustedBaseFee fc pools a₁ t
    ∧ (calculateFee fc pools a₁ t).feePercent
        = Utils.roundTo (.num (adjustedBaseFee fc pools a₁ t * 100)) 4 := by
  refine ⟨le_max_right _ _, ?_, ?_⟩
  · unfold adjustedBaseFee
    apply max_le_max _ le_rfl
    apply mul_le_mul_of_nonneg_left _ hb
    linarith
  · have hpos : Utils.isPositiveNumber a₁ = true := by
      simp [Utils.isPositiveNumber, h₁]
    simp only [calculateFee, hpos, if_true]

/-- Witness for C4 amended at the default configuration with
`a₁ = 10000`, `a₂ = 100` (on equal pools the smaller trade has the
smaller `|diff|`... here `|diff(10000)| ≥ |diff(100)|` so instantiate
with `a₁ = 100`, `a₂ = 10000`). -/
theorem adjustedFee_bounds_witness :
    CONFIG.MIN_BASE_FEE ≤ adjustedBaseFee defaultFeeConfig defaultPools 100 Token.HIVE
    ∧ adjustedBaseFee defaultFeeConfig defaultPools 10000 Token.HIVE
        ≤ adjustedBaseFee defaultFeeConfig defaultPools 100 Token.HIVE
    ∧ (calculateFee defaultFeeConfig defaultPools 100 Token.HIVE).feePercent
        = Utils.roundTo
            (.num (adjustedBaseFee defaultFeeConfig defaultPools 100 Token.HIVE
              * 100)) 4 :=
  adjustedFee_bounds defaultFeeConfig defaultPools 100 10000 Token.HIVE
    (by norm_num [defaultFeeConfig, CONFIG.BASE_FEE])
    (by norm_num [poolDiff, defaultPools, CONFIG.HIVEPOOL, CONFIG.SHIVEPOOL, abs])
    (by norm_num)

/-- The backfill block never changes the status. -/
theorem backfillTxId_status (o : StepOracle) (s : SwapRecord) :
    (backfillTxId o s).status = s.status := by
  simp only [backfillTxId]
  split_ifs <;> rfl

/-- The pending-resolution block leaves non-pending records alone. -/
theorem resolvePending_of_not_pending (now : ℤ) (o : StepOracle) (s : SwapRecord)
    (h : ¬ s.status = .pending) : resolvePending now o s = s := by
  simp only [resolvePending]
  rw [if_neg h]

/-- The backfill block leaves pending records alone. -/
theorem backfillTxId_of_pending (o : StepOracle) (s : SwapRecord)
    (h : s.status = .pending) : backfillTxId o s = s := by
  simp only [backfillTxId]
  rw [if_neg]
  intro hc
  rcases hc.1 with h1 | h1 <;> rw [h] at h1 <;> cases h1

/-- The per-record transition relation of one resolution pass: a
terminal (non-pending) status is preserved, and a changed status means
the record was pending and moved to completed, refunded, or
not-sent. -/
theorem resolve_transitions (now : ℤ) (o : StepOracle) (s : SwapRecord) :
    (¬ s.status = .pending → (resolveSwapRecord now o s).status = s.status)
    ∧ (¬ (resolveSwapRecord now o s).status = s.status →
        s.status = .pending
        ∧ ((resolveSwapRecord now o s).status = .completed
          ∨ (resolveSwapRecord now o s).status = .refunded
          ∨ (resolveSwapRecord now o s).status = .notSent)) := by
  constructor
  · intro h
    unfold resolveSwapRecord
    rw [resolvePending_of_not_pending now o _ (by rw [backfillTxId_status]; exact h)]
    exact backfillTxId_status o s
  · intro hne
    by_cases hp : s.status = .pending
    · refine ⟨hp, ?_⟩
      cases hres : (resolveSwapRecord now o s).status
      · exact absurd (hres.trans hp.symm) hne
      · exact Or.inl rfl
      · exact Or.inr (Or.inl rfl)
      · exact Or.inr (Or.inr rfl)
    · exfalso
      apply hne
      unfold resolveSwapRecord
      rw [resolvePending_of_not_pending now o _ (by rw [backfillTxId_status]; exact hp)]
      exact backfillTxId_status o s

/-- C5: over a full `loadSwapHistory` pass, the stored history is
rewritten pointwise, and pointwise no record in a terminal status
(completed, refunded, or not-sent) changes status; the only status
transitions performed are from pending to completed, refunded, or
not-sent (the placeholder backfill touches only `txIdReceived`). -/
theorem loadSwapHistory_status_machine (username : String) (now : ℤ)
    (oracles : ℕ → StepOracle) (history : List SwapRecord) :
    List.Forall₂
      (fun a b =>
        (¬ a.status = Status.pending → b.status = a.status)
        ∧ (¬ b.status = a.status →
            a.status = Status.pending
            ∧ (b.status = Status.completed ∨ b.status = Status.refunded
              ∨ b.status = Status.notSent)))
      history (loadSwapHistory username now oracles history).1 := by
  unfold loadSwapHistory
  split_ifs
  · exact List.forall₂_same.mpr (fun a _ => ⟨fun h => rfl, fun h => absurd rfl h⟩)
  · show List.Forall₂ _ history (loadSwapHistoryAux username now oracles 0 history)
    suffices hgen : ∀ (i : ℕ) (l : List SwapRecord),
        List.Forall₂
          (fun a b =>
            (¬ a.status = Status.pending → b.status = a.status)
            ∧ (¬ b.status = a.status →
                a.status = Status.pending
                ∧ (b.status = Status.completed ∨ b.status = Status.refunded
                  ∨ b.status = Status.notSent)))
          l (loadSwapHistoryAux username now oracles i l) from hgen 0 history
    intro i l
    induction l generalizing i with
    | nil => exact List.Forall₂.nil
    | cons r rest ih =>
      unfold loadSwapHistoryAux
      split_ifs with hu
      · exact List.Forall₂.cons (resolve_transitions now (oracles i) r) (ih (i + 1))
      · exact List.Forall₂.cons
          ⟨fun _ => rfl, fun h => absurd rfl h⟩ (ih i)

/-- The existence conversion maps a failed query to `false`, for either
origin ledger. -/
theorem verifyTransactionExists_error (t : Token) :
    verifyTransactionExists t (.error ()) = false := by
  cases t <;> rfl

/-- Normal form of a resolution pass on a pending record whose
completion and refund checks both come back not-found: only the age
window and existence check remain. -/
theorem resolveSwapRecord_pending_eq (now : ℤ) (o : StepOracle) (swap : SwapRecord)
    (hp : swap.status = .pending)
    (hc : (if swap.toToken = .HIVE then
        checkUswapHiveTransfers swap.txIdSent swap.username o.completeHist
      else
        checkUswapEngineTransfers swap.txIdSent swap.username o.completeHist).found
      = false)
    (hr : (if swap.fromToken = .HIVE then
        checkUswapHiveTransfers swap.txIdSent swap.username o.refundHist
      else
        checkUswapEngineTransfers swap.txIdSent swap.username o.refundHist).found
      = false) :
    resolveSwapRecord now o swap =
      if 30 * 1000 < now - swap.timestamp ∧ now - swap.timestamp < 10 * 60 * 1000 then
        if ¬ verifyTransactionExists swap.fromToken o.txRaw then
          { swap with status := .notSent }
        else swap
      else swap := by
  unfold resolveSwapRecord
  rw [backfillTxId_of_pending o swap hp]
  unfold resolvePending
  rw [if_pos hp]
  simp only [hc, hr, Bool.false_eq_true, if_false]

/-- C6: for a pending record found neither completed nor refunded by
the pass: younger than 30 seconds it is left untouched regardless of
what the existence lookup would return (no existence check is
performed); older than 10 minutes it is likewise left untouched and
stays pending; and it is marked not-sent exactly when its age is
strictly between 30 seconds and 10 minutes and the origin-ledger
existence check reports the submitted transaction absent. -/
theorem age_window (now : ℤ) (o : StepOracle) (swap : SwapRecord)
    (hp : swap.status = .pending)
    (hc : (if swap.toToken = .HIVE then
        checkUswapHiveTransfers swap.txIdSent swap.username o.completeHist
      else
        checkUswapEngineTransfers swap.txIdSent swap.username o.completeHist).found
      = false)
    (hr : (if swap.fromToken = .HIVE then
        checkUswapHiveTransfers swap.txIdSent swap.username o.refundHist
      else
        checkUswapEngineTransfers swap.txIdSent swap.username o.refundHist).found
      = false) :
    (now - swap.timestamp < 30 * 1000 →
      ∀ raw, resolveSwapRecord now { o with txRaw := raw } swap = swap)
    ∧ (10 * 60 * 1000 < now - swap.timestamp →
      ∀ raw, resolveSwapRecord now { o with txRaw := raw } swap = swap)
    ∧ ((resolveSwapRecord now o swap).status = .notSent ↔
        (30 * 1000 < now - swap.timestamp ∧ now - swap.timestamp < 10 * 60 * 1000
          ∧ verifyTransactionExists swap.fromToken o.txRaw = false)) := by
  refine ⟨?_, ?_, ?_⟩
  · intro hyoung raw
    rw [resolveSwapRecord_pending_eq now { o with txRaw := raw } swap hp hc hr]
    rw [if_neg (by omega)]
  · intro hold raw
    rw [resolveSwapRecord_pending_eq now { o with txRaw := raw } swap hp hc hr]
    rw [if_neg (by omega)]
  · rw [resolveSwapRecord_pending_eq now o swap hp hc hr]
    by_cases hw : 30 * 1000 < now - swap.timestamp
        ∧ now - swap.timestamp < 10 * 60 * 1000
    · rw [if_pos hw]
      cases hv : verifyTransactionExists swap.fromToken o.txRaw
      · simp only [hv, Bool.false_eq_true, not_false_eq_true, if_true]
        constructor
        · intro _
          exact ⟨hw.1, hw.2, by simp [hv]⟩
        · intro _
          trivial
      · simp only [hv, not_true_eq_false, if_false]
        rw [hp]
        simp
    · rw [if_neg hw]
      rw [hp]
      constructor
      · intro h
        cases h
      · intro h
        exact absurd ⟨h.1, h.2.1⟩ hw

/-- A concrete pending swap record shared by several witnesses. -/
def sampleSwap : SwapRecord :=
  { timestamp := 0
    txIdSent := "tx1"
    amountSent := "1.000 HIVE"
    fromToken := .HIVE
    toToken := .SWAPHIVE
    username := "alice"
    status := .pending
    txIdReceived := none
    amountReceived := none }

/-- An oracle in which every remote query fails. -/
def failOracle : StepOracle :=
  { backfillHist := .error ()
    completeHist := .error ()
    refundHist := .error ()
    txRaw := .error () }

/-- An oracle in which every query succeeds but finds nothing. -/
def emptyOracle : StepOracle :=
  { backfillHist := .ok []
    completeHist := .ok []
    refundHist := .ok []
    txRaw := .ok none }

/-- Witness for C6: the concrete pending record at age 60 seconds with
empty bridge histories and a not-found existence lookup. -/
theorem age_window_witness :
    (60000 - sampleSwap.timestamp < 30 * 1000 →
      ∀ raw, resolveSwapRecord 60000 { emptyOracle with txRaw := raw } sampleSwap
        = sampleSwap)
    ∧ (10 * 60 * 1000 < 60000 - sampleSwap.timestamp →
      ∀ raw, resolveSwapRecord 60000 { emptyOracle with txRaw := raw } sampleSwap
        = sampleSwap)
    ∧ ((resolveSwapRecord 60000 emptyOracle sampleSwap).status = .notSent ↔
        (30 * 1000 < 60000 - sampleSwap.timestamp
          ∧ 60000 - sampleSwap.timestamp < 10 * 60 * 1000
          ∧ verifyTransactionExists sampleSwap.fromToken emptyOracle.txRaw
              = false)) :=
  age_window 60000 emptyOracle sampleSwap rfl rfl rfl

/-- C7 counterexample: on a resolution pass in which every remote
query fails (bridge-history queries and the transaction-existence
query all error out), the concrete pending record is *not* left
unchanged: the failed existence query is treated as "transaction
absent" and the record is marked not-sent. -/
theorem resolution_failure_changes_status :
    sampleSwap.status = .pending
    ∧ (resolveSwapRecord 60000 failOracle sampleSwap).status = .notSent :=
  ⟨rfl, rfl⟩

/-- C7 amended: bridge-history query failures alone are inconclusive —
with both history queries failing, a pass outside the 30-second-to-
10-minute age window leaves the record (and its pending status)
unchanged — but a transaction-existence query failure inside the age
window is treated as the transaction being absent and marks the
record not-sent. -/
theorem resolution_failure_semantics (now : ℤ) (o : StepOracle) (swap : SwapRecord)
    (hp : swap.status = .pending)
    (hce : o.completeHist = .error ())
    (hre : o.refundHist = .error ()) :
    (¬ (30 * 1000 < now - swap.timestamp ∧ now - swap.timestamp < 10 * 60 * 1000) →
        resolveSwapRecord now o swap = swap)
    ∧ (30 * 1000 < now - swap.timestamp → now - swap.timestamp < 10 * 60 * 1000 →
        o.txRaw = .error () →
        (resolveSwapRecord now o swap).status = .notSent) := by
  have hc : (if swap.toToken = .HIVE then
      checkUswapHiveTransfers swap.txIdSent swap.username o.completeHist
    else
      checkUswapEngineTransfers swap.txIdSent swap.username o.completeHist).found
      = false := by
    rw [hce]
    by_cases htt : swap.toToken = Token.HIVE
    · rw [if_pos htt]
      rfl
    · rw [if_neg htt]
      rfl
  have hr : (if swap.fromToken = .HIVE then
      checkUswapHiveTransfers swap.txIdSent swap.username o.refundHist
    else
      checkUswapEngineTransfers swap.txIdSent swap.username o.refundHist).found
      = false := by
    rw [hre]
    by_cases hft : swap.fromToken = Token.HIVE
    · rw [if_pos hft]
      rfl
    · rw [if_neg hft]
      rfl
  constructor
  · intro hout
    rw [resolveSwapRecord_pending_eq now o swap hp hc hr, if_neg hout]
  · intro h1 h2 htx
    rw [resolveSwapRecord_pending_eq now o swap hp hc hr, if_pos ⟨h1, h2⟩]
    rw [htx, verifyTransactionExists_error]
    simp

/-- Witness for C7 amended: the concrete pending record at age 60
seconds under the all-failing oracle. -/
theorem resolution_failure_semantics_witness :
    (¬ (30 * 1000 < 60000 - sampleSwap.timestamp
        ∧ 60000 - sampleSwap.timestamp < 10 * 60 * 1000) →
      resolveSwapRecord 60000 failOracle sampleSwap = sampleSwap)
    ∧ (30 * 1000 < 60000 - sampleSwap.timestamp →
        60000 - sampleSwap.timestamp < 10 * 60 * 1000 →
        failOracle.txRaw = .error () →
        (resolveSwapRecord 60000 failOracle sampleSwap).status = .notSent) :=
  resolution_failure_semantics 60000 failOracle sampleSwap rfl rfl rfl

/-- `take n` absorbs an inner `take m` after an append when `n ≤ m`. -/
theorem take_append_take {α : Type} (m : ℕ) :
    ∀ (A B : List α) (n : ℕ), n ≤ m →
      (A ++ B.take m).take n = (A ++ B).take n := by
  intro A
  induction A with
  | nil =>
    intro B n h
    simp [List.take_take, Nat.min_eq_left h]
  | cons a A ih =>
    intro B n h
    cases n with
    | zero => simp
    | succ n =>
      simp only [List.cons_append, List.take_succ_cons]
      rw [ih B n (Nat.le_of_succ_le h)]

/-- The record built by `addSwapToHistory` belongs to its user. -/
theorem mkSwapRecord_username (txId : String) (amount : ℚ) (fromToken : Token)
    (username : String) (nowMs : ℤ) :
    ((mkSwapRecord txId amount fromToken username nowMs).username == username)
      = true := by
  simp [mkSwapRecord]

/-- One `addSwapToHistory` call, seen through `recordsFor`: the new
record is prepended and the user's records are capped at 10. -/
theorem recordsFor_add (txId : String) (amount : ℚ) (fromToken : Token)
    (username : String) (nowMs : ℤ) (stored : List SwapRecord) :
    recordsFor username (addSwapToHistory txId amount fromToken username nowMs stored)
      = (mkSwapRecord txId amount fromToken username nowMs
          :: recordsFor username stored).take 10 := by
  unfold addSwapToHistory recordsFor
  rw [List.filter_append]
  have h1 : List.filter (fun h => h.username == username)
      (((mkSwapRecord txId amount fromToken username nowMs :: stored).filter
        (fun h => h.username == username)).take 10)
      = ((mkSwapRecord txId amount fromToken username nowMs :: stored).filter
          (fun h => h.username == username)).take 10 := by
    apply List.filter_eq_self.mpr
    intro a ha
    have ha' : a ∈ (mkSwapRecord txId amount fromToken username nowMs :: stored).filter
        (fun h => h.username == username) := List.take_subset _ _ ha
    exact (List.mem_filter.mp ha').2
  have h2 : List.filter (fun h => h.username == username)
      ((mkSwapRecord txId amount fromToken username nowMs :: stored).filter
        (fun h => !(h.username == username))) = [] := by
    apply List.filter_eq_nil_iff.mpr
    intro a ha
    have := (List.mem_filter.mp ha).2
    simp only [Bool.not_eq_true'] at this
    simp [this]
  rw [h1, h2, List.append_nil]
  congr 1
  exact List.filter_cons_of_pos (mkSwapRecord_username txId amount fromToken username nowMs)

/-- One `addSwapToHistory` call never touches other users' records. -/
theorem recordsNotFor_add (txId : String) (amount : ℚ) (fromToken : Token)
    (username : String) (nowMs : ℤ) (stored : List SwapRecord) :
    recordsNotFor username (addSwapToHistory txId amount fromToken username nowMs stored)
      = recordsNotFor username stored := by
  unfold addSwapToHistory recordsNotFor
  rw [List.filter_append]
  have h1 : List.filter (fun h => !(h.username == username))
      (((mkSwapRecord txId amount fromToken username nowMs :: stored).filter
        (fun h => h.username == username)).take 10) = [] := by
    apply List.filter_eq_nil_iff.mpr
    intro a ha
    have ha' : a ∈ (mkSwapRecord txId amount fromToken username nowMs :: stored).filter
        (fun h => h.username == username) := List.take_subset _ _ ha
    have := (List.mem_filter.mp ha').2
    simp [this]
  have h2 : List.filter (fun h => !(h.username == username))
      ((mkSwapRecord txId amount fromToken username nowMs :: stored).filter
        (fun h => !(h.username == username)))
      = (mkSwapRecord txId amount fromToken username nowMs :: stored).filter
          (fun h => !(h.username == username)) := by
    apply List.filter_eq_self.mpr
    intro a ha
    exact (List.mem_filter.mp ha).2
  rw [h1, h2, List.nil_append]
  exact List.filter_cons_of_neg (by simp [mkSwapRecord])

/-- A nonempty run of `addSwapToHistory` calls for one user: the user's
records are the 10 most recent submissions (newest first, padded from
the previous records), everyone else's records are exactly preserved. -/
theorem submitAll_records (username : String) :
    ∀ (rest : List SwapInput) (p : SwapInput) (stored : List SwapRecord),
      recordsFor username (submitAll username (p :: rest) stored)
        = (((p :: rest).map (fun q =>
              mkSwapRecord q.txId q.amount q.fromToken username q.nowMs)).reverse
            ++ recordsFor username stored).take 10
      ∧ recordsNotFor username (submitAll username (p :: rest) stored)
          = recordsNotFor username stored := by
  intro rest
  induction rest with
  | nil =>
    intro p stored
    constructor
    · show recordsFor username
          (addSwapToHistory p.txId p.amount p.fromToken username p.nowMs stored) = _
      rw [recordsFor_add]
      simp
    · show recordsNotFor username
          (addSwapToHistory p.txId p.amount p.fromToken username p.nowMs stored) = _
      rw [recordsNotFor_add]
  | cons q rest ih =>
    intro p stored
    have hfold : submitAll username (p :: q :: rest) stored
        = submitAll username (q :: rest)
            (addSwapToHistory p.txId p.amount p.fromToken username p.nowMs stored) := rfl
    rw [hfold]
    obtain ⟨ih1, ih2⟩ := ih q
      (addSwapToHistory p.txId p.amount p.fromToken username p.nowMs stored)
    constructor
    · rw [ih1, recordsFor_add]
      rw [take_append_take 10 _ _ 10 le_rfl]
      have : ((q :: rest).map (fun r =>
            mkSwapRecord r.txId r.amount r.fromToken username r.nowMs)).reverse
          ++ (mkSwapRecord p.txId p.amount p.fromToken username p.nowMs
              :: recordsFor username stored)
          = (((p :: q :: rest).map (fun r =>
              mkSwapRecord r.txId r.amount r.fromToken username r.nowMs)).reverse
            ++ recordsFor username stored) := by
        simp
      rw [this]
    · rw [ih2, recordsNotFor_add]

/-- C8: after `addSwapToHistory` has been invoked 11 times for one
username, exactly the 10 most recent records for that username remain
(newest first — the first submission has been evicted), and the
records of every other username are exactly those present before. -/
theorem history_cap (stored : List SwapRecord) (username : String)
    (inputs : List SwapInput) (hlen : inputs.length = 11) :
    recordsFor username (submitAll username inputs stored)
        = ((inputs.map (fun q =>
            mkSwapRecord q.txId q.amount q.fromToken username q.nowMs)).reverse).take 10
    ∧ (recordsFor username (submitAll username inputs stored)).length = 10
    ∧ recordsNotFor username (submitAll username inputs stored)
        = recordsNotFor username stored := by
  cases inputs with
  | nil => cases hlen
  | cons p rest =>
    obtain ⟨h1, h2⟩ := submitAll_records username rest p stored
    have hR : (((p :: rest).map (fun q =>
        mkSwapRecord q.txId q.amount q.fromToken username q.nowMs)).reverse).length
        = 11 := by
      simp only [List.length_reverse, List.length_map]
      exact hlen
    have htake : ((((p :: rest).map (fun q =>
          mkSwapRecord q.txId q.amount q.fromToken username q.nowMs)).reverse
        ++ recordsFor username stored)).take 10
        = (((p :: rest).map (fun q =>
            mkSwapRecord q.txId q.amount q.fromToken username q.nowMs)).reverse).take 10 := by
      rw [List.take_append_of_le_length (by rw [hR]; norm_num)]
    refine ⟨h1.trans htake, ?_, h2⟩
    rw [h1.trans htake, List.length_take, hR]
    omega

/-- Eleven concrete submissions for user `alice`. -/
def sampleInputs : List SwapInput :=
  [ ⟨"s1", 1, .HIVE, 1⟩, ⟨"s2", 2, .HIVE, 2⟩, ⟨"s3", 3, .HIVE, 3⟩,
    ⟨"s4", 4, .HIVE, 4⟩, ⟨"s5", 5, .HIVE, 5⟩, ⟨"s6", 6, .HIVE, 6⟩,
    ⟨"s7", 7, .HIVE, 7⟩, ⟨"s8", 8, .HIVE, 8⟩, ⟨"s9", 9, .HIVE, 9⟩,
    ⟨"s10", 10, .HIVE, 10⟩, ⟨"s11", 11, .HIVE, 11⟩ ]

/-- A stored history holding one record of another user. -/
def sampleStored : List SwapRecord :=
  [ { timestamp := 0
      txIdSent := "bob1"
      amountSent := "5.000 HIVE"
      fromToken := .HIVE
      toToken := .SWAPHIVE
      username := "bob"
      status := .pending
      txIdReceived := none
      amountReceived := none } ]

/-- Witness for C8: eleven concrete submissions for `alice` on a store
holding one record of `bob`. -/
theorem history_cap_witness :
    recordsFor ("alice") (submitAll ("alice") sampleInputs sampleStored)
        = ((sampleInputs.map (fun q =>
            mkSwapRecord q.txId q.amount q.fromToken ("alice") q.nowMs)).reverse).take 10
    ∧ (recordsFor ("alice") (submitAll ("alice") sampleInputs sampleStored)).length = 10
    ∧ recordsNotFor ("alice") (submitAll ("alice") sampleInputs sampleStored)
        = recordsNotFor ("alice") sampleStored :=
  history_cap sampleStored ("alice") sampleInputs rfl

/-- A successful scan names an item of the scanned list: it is a
transfer whose memo contains the original transaction id, and the
result's counterpart id and memo are that item's. -/
theorem scanTransfers_found (txId : String) :
    ∀ l : List HistoryItem, (scanTransfers txId l).found = true →
      ∃ item, item ∈ l ∧ ∃ src tgt amt memo,
        item.op = .transfer src tgt amt memo
        ∧ strIncludes memo txId = true
        ∧ (scanTransfers txId l).txId = some item.trxId
        ∧ (scanTransfers txId l).memo = some memo := by
  intro l
  induction l with
  | nil =>
    intro h
    simp [scanTransfers] at h
  | cons item rest ih =>
    intro h
    cases hop : item.op with
    | transfer src tgt amt memo =>
      by_cases hm : strIncludes memo txId = true
      · refine ⟨item, List.mem_cons_self item rest, src, tgt, amt, memo, hop, hm, ?_, ?_⟩
        · simp [scanTransfers, hop, hm]
        · simp [scanTransfers, hop, hm]
      · have hrec : scanTransfers txId (item :: rest) = scanTransfers txId rest := by
          simp [scanTransfers, hop, hm]
        rw [hrec] at h ⊢
        obtain ⟨it, hmem, rest'⟩ := ih h
        exact ⟨it, List.mem_cons_of_mem item hmem, rest'⟩
    | customJson id payload =>
      have hrec : scanTransfers txId (item :: rest) = scanTransfers txId rest := by
        simp [scanTransfers, hop]
      rw [hrec] at h ⊢
      obtain ⟨it, hmem, rest'⟩ := ih h
      exact ⟨it, List.mem_cons_of_mem item hmem, rest'⟩
    | other =>
      have hrec : scanTransfers txId (item :: rest) = scanTransfers txId rest := by
        simp [scanTransfers, hop]
      rw [hrec] at h ⊢
      obtain ⟨it, hmem, rest'⟩ := ih h
      exact ⟨it, List.mem_cons_of_mem item hmem, rest'⟩

/-- C9 amended: `executeSwap` does embed the 3-decimal-formatted
`minReceive` as the transfer memo, but the correlation key of the
resolution routine is the submitted transaction id: any settlement it
finds in the bridge-account history is a bridge-to-user transfer whose
memo contains that transaction id (the memo value plays no part in the
match). -/
theorem executeSwap_memo_and_correlation (sw : CurrentSwap) (username : String)
    (txId user : String) (hist : List HistoryItem)
    (hfound : (checkUswapHiveTransfers txId user (.ok hist)).found = true) :
    (executeSwapTransfer sw username).memo
        = toFixed (Utils.roundTo (.num sw.minReceive) 3) 3
    ∧ ∃ item, item ∈ hist ∧ isBridgeTransferTo user item = true
        ∧ ∃ src tgt amt memo, item.op = .transfer src tgt amt memo
          ∧ strIncludes memo txId = true
          ∧ (checkUswapHiveTransfers txId user (.ok hist)).txId = some item.trxId := by
  constructor
  · simp only [executeSwapTransfer]
    split_ifs <;> rfl
  · have hfound' : (scanTransfers txId
        ((hist.filter (isBridgeTransferTo user)).reverse)).found = true := hfound
    obtain ⟨item, hmem, src, tgt, amt, memo, hop, hinc, htx, _⟩ :=
      scanTransfers_found txId _ hfound'
    have hmem' := List.mem_filter.mp (List.mem_reverse.mp hmem)
    exact ⟨item, hmem'.1, hmem'.2, src, tgt, amt, memo, hop, hinc, htx⟩

/-- The quote held in `currentSwap` at submission time in the C9
scenario (minReceive 99.55 from amount 100 at slippage 0.25). -/
def sampleQuote : CurrentSwap :=
  { fromToken := .SWAPHIVE
    toToken := .HIVE
    amount := 100
    expected := 99799 / 1000
    fee := 19959839 / 100000000
    feePercent := 1996 / 10000
    slippage := 1 / 4
    minReceive := 1991 / 20 }

/-- A bridge history holding the settlement of `tx1`: the outbound
memo embeds the transaction id, not the submitted memo value. -/
def sampleSettleHistory : List HistoryItem :=
  [ { trxId := "settle77"
      op := .transfer CONFIG.BRIDGE_USER ("alice") ("99.640 HIVE")
        ("Swap complete for tx1") } ]

/-- A bridge history whose only transfer memo is the submitted memo
value (the formatted minReceive) without the transaction id. -/
def sampleMemoOnlyHistory : List HistoryItem :=
  [ { trxId := "settle78"
      op := .transfer CONFIG.BRIDGE_USER ("alice") ("99.550 HIVE") ("99.550 paid") } ]

/-- C9 counterexample: the submitted memo is the formatted minReceive
`"99.550"`, yet the resolution routine matches the settlement whose
memo contains the transaction id `tx1` and not `"99.550"`, and fails
to match a settlement whose memo contains `"99.550"` but not `tx1` —
the embedded minReceive value is not the correlation key. -/
theorem memo_not_correlation_key :
    (executeSwapTransfer sampleQuote ("alice")).memo = "99.550"
    ∧ (checkUswapHiveTransfers ("tx1") ("alice") (.ok sampleSettleHistory)).found = true
    ∧ (checkUswapHiveTransfers ("tx1") ("alice") (.ok sampleSettleHistory)).memo
        = some ("Swap complete for tx1")
    ∧ strIncludes ("Swap complete for tx1")
        ((executeSwapTransfer sampleQuote ("alice")).memo) = false
    ∧ (checkUswapHiveTransfers ("tx1") ("alice") (.ok sampleMemoOnlyHistory)).found
        = false
    ∧ strIncludes ("99.550 paid")
        ((executeSwapTransfer sampleQuote ("alice")).memo) = true := by
  refine ⟨?_, ?_, ?_, ?_, ?_, ?_⟩
  · with_unfolding_all decide
  · with_unfolding_all decide
  · with_unfolding_all decide
  · with_unfolding_all decide
  · with_unfolding_all decide
  · with_unfolding_all decide

/-- Witness for C9 amended: the concrete settlement history for `tx1`. -/
theorem executeSwap_memo_and_correlation_witness :
    (executeSwapTransfer sampleQuote ("alice")).memo
        = toFixed (Utils.roundTo (.num sampleQuote.minReceive) 3) 3
    ∧ ∃ item, item ∈ sampleSettleHistory
        ∧ isBridgeTransferTo ("alice") item = true
        ∧ ∃ src tgt amt memo, item.op = .transfer src tgt amt memo
          ∧ strIncludes memo ("tx1") = true
          ∧ (checkUswapHiveTransfers ("tx1") ("alice")
              (.ok sampleSettleHistory)).txId = some item.trxId :=
  executeSwap_memo_and_correlation sampleQuote ("alice") ("tx1") ("alice")
    sampleSettleHistory (by with_unfolding_all decide)

end USwap